import Mathlib

/-!
Formal model of the chat application's message store, admission control,
flag detection, broadcast server, stream orchestrator and client reconnect
logic, translated from the TypeScript sources (`lib/db.ts`, the stream API
route, the standalone WebSocket server and the WebSocket client helper).

JavaScript `Map`s and plain objects are modelled as association lists over
`String` keys; JS numbers are modelled as `Int` for timestamps/counters and
as `ℚ` where division occurs (room statistics); JS `Set`s are modelled as
duplicate-free lists in insertion order.
-/

namespace ChatApp

/-- Association-list lookup, modelling `Map.get(k)` / `obj[k]`. -/
def alookup {α : Type} (k : String) : List (String × α) → Option α
  | [] => none
  | (k', v) :: rest => if k' = k then some v else alookup k rest

/-- Association-list insert/overwrite, modelling `Map.set(k, v)` / `obj[k] = v`:
an existing key keeps its position, a new key is appended. -/
def aset {α : Type} (k : String) (v : α) : List (String × α) → List (String × α)
  | [] => [(k, v)]
  | (k', v') :: rest => if k' = k then (k, v) :: rest else (k', v') :: aset k v rest

/-- Association-list key removal, modelling `Map.delete(k)` / `delete obj[k]`. -/
def aremove {α : Type} (k : String) : List (String × α) → List (String × α)
  | [] => []
  | (k', v') :: rest => if k' = k then rest else (k', v') :: aremove k rest

theorem alookup_aset_self {α : Type} (k : String) (v : α) (l : List (String × α)) :
    alookup k (aset k v l) = some v := by
  induction l with
  | nil => simp [aset, alookup]
  | cons hd tl ih =>
    obtain ⟨k', v'⟩ := hd
    by_cases h : k' = k <;> simp [aset, alookup, h, ih]

theorem alookup_aset_ne {α : Type} {k k' : String} (h : k ≠ k') (v : α)
    (l : List (String × α)) : alookup k' (aset k v l) = alookup k' l := by
  induction l with
  | nil => simp [aset, alookup, h]
  | cons hd tl ih =>
    obtain ⟨k₀, v₀⟩ := hd
    by_cases h₀ : k₀ = k
    · subst h₀; simp [aset, alookup, h]
    · simp [aset, alookup, h₀, ih]

/-! ### Message store data model (from `lib/db.ts`) -/

/-- Message role, from the TS union type `"user" | "assistant"`. -/
inductive Role where
  | user
  | assistant
deriving DecidableEq, Repr

/-- Attachment record from `lib/db.ts` (`type` is renamed `kind`; its TS
values are `"image" | "pdf"`). -/
structure Attachment where
  id : String
  name : String
  kind : String
  url : String
  size : Int
  previewText : Option String := none
deriving DecidableEq, Repr

/-- Message record from `lib/db.ts`. `reactions` is the optional JS object
`Record<string, string[]>`, modelled as an association list in key-insertion
order. -/
structure Message where
  id : String
  roomId : String
  role : Role
  content : String
  createdAt : Int
  updatedAt : Option Int := none
  senderId : Option String := none
  pinned : Bool := false
  reactions : Option (List (String × List String)) := none
  attachments : Option (List Attachment) := none
  flags : List String := []
  hidden : Bool := false
deriving DecidableEq, Repr

/-- Token usage sub-record of `RoomStats`. Numeric fields are JS numbers,
modelled as ℚ. -/
structure TokenUsage where
  prompt : ℚ
  completion : ℚ
  total : ℚ
deriving DecidableEq, Repr

/-- Per-room statistics record from `lib/db.ts`. -/
structure RoomStats where
  roomId : String
  userMessages : ℚ
  assistantMessages : ℚ
  avgResponseMs : ℚ
  lastResponseMs : ℚ
  totalResponses : ℚ
  tokenUsage : TokenUsage
deriving DecidableEq, Repr

/-- Per-room settings record from `lib/db.ts`. -/
structure RoomSettings where
  roomId : String
  rateLimitMax : Int
  rateLimitWindowMs : Int
  slowModeMs : Int
deriving DecidableEq, Repr

/-! ### Message operations (from `lib/db.ts`) -/

/-- `saveMessage`: `messages.push(message)` — appends unconditionally. -/
def saveMessage (m : Message) (messages : List Message) : List Message :=
  messages ++ [m]

/-- `getMessage`: `messages.find((message) => message.id === id)`. -/
def getMessage (id : String) (messages : List Message) : Option Message :=
  messages.find? (fun m => m.id = id)

/-- Number of stored messages carrying a given id. -/
def countWithId (id : String) (messages : List Message) : Nat :=
  messages.countP (fun m => m.id = id)

/-- Replace the first list element satisfying `p` by its image under `f`
(models in-place mutation of the object returned by `messages.find`). -/
def updateFirst {α : Type} (p : α → Bool) (f : α → α) : List α → List α
  | [] => []
  | x :: rest => if p x then f x :: rest else x :: updateFirst p f rest

/-- First-occurrence deduplication, modelling `new Set(array)` iterated in
insertion order. -/
def dedupFirst : List String → List String
  | [] => []
  | x :: xs => x :: dedupFirst (xs.filter (fun y => y ≠ x))
termination_by l => l.length
decreasing_by
  simp only [List.length_cons]
  exact Nat.lt_succ_of_le (List.length_filter_le _ _)

/-- Toggle membership of `u` in the set represented by `l`, preserving JS
`Set` insertion order: `const existing = new Set(l); existing.has(u) ?
existing.delete(u) : existing.add(u); Array.from(existing)`. -/
def setToggle (u : String) (l : List String) : List String :=
  let s := dedupFirst l
  if u ∈ s then s.erase u else s ++ [u]

/-- Per-message body of `toggleReaction` from `lib/db.ts`: default
`reactions` to `{}`, toggle `userId` in the emoji's reactor set, delete the
emoji key when the set becomes empty, stamp `updatedAt`. -/
def applyToggle (emoji userId : String) (now : Int) (m : Message) : Message :=
  let reacts := m.reactions.getD []
  let existing := setToggle userId ((alookup emoji reacts).getD [])
  let reacts' :=
    if existing.isEmpty then aremove emoji reacts
    else aset emoji existing reacts
  { m with reactions := some reacts', updatedAt := some now }

/-- `toggleReaction(id, emoji, userId)` from `lib/db.ts`: find the first
message with the id and mutate it in place (absent id: no change). -/
def toggleReaction (id emoji userId : String) (now : Int)
    (messages : List Message) : List Message :=
  updateFirst (fun m => m.id = id) (applyToggle emoji userId now) messages

/-- Whether, in store `messages`, the first message with id `id` currently
records a reaction by `userId` with `emoji` (an absent message, absent
reactions object or absent emoji key all mean no reaction). -/
def msgHasReaction (id emoji userId : String) (messages : List Message) : Bool :=
  match getMessage id messages with
  | none => false
  | some m => ((alookup emoji (m.reactions.getD [])).getD []).contains userId

/-- The reactor list recorded for `emoji` on the first message with id `id`
(`none` when the message is absent, has no reactions object, or the emoji key
is missing). -/
def msgReactors (id emoji : String) (messages : List Message) :
    Option (List String) :=
  match getMessage id messages with
  | none => none
  | some m =>
    match m.reactions with
    | none => none
    | some reacts => alookup emoji reacts

/-! ### Association-list and set-toggle lemmas -/

theorem mem_dedupFirst (l : List String) (x : String) :
    x ∈ dedupFirst l ↔ x ∈ l := by
  induction l using dedupFirst.induct with
  | case1 => rw [dedupFirst]
  | case2 y ys ih =>
    rw [dedupFirst]
    simp only [List.mem_cons, ih, List.mem_filter]
    by_cases hxy : x = y
    · simp [hxy]
    · simp [hxy]

theorem nodup_dedupFirst (l : List String) : (dedupFirst l).Nodup := by
  induction l using dedupFirst.induct with
  | case1 => rw [dedupFirst]; exact List.nodup_nil
  | case2 y ys ih =>
    rw [dedupFirst]
    refine List.nodup_cons.mpr ⟨?_, ih⟩
    intro hmem
    rw [mem_dedupFirst] at hmem
    simp [List.mem_filter] at hmem

theorem mem_setToggle (u x : String) (l : List String) :
    x ∈ setToggle u l ↔ ((x = u ∧ u ∉ l) ∨ (x ≠ u ∧ x ∈ l)) := by
  unfold setToggle
  by_cases hu : u ∈ dedupFirst l
  · have hul : u ∈ l := (mem_dedupFirst l u).mp hu
    simp only [hu, if_true, (nodup_dedupFirst l).mem_erase_iff, mem_dedupFirst]
    tauto
  · have hul : u ∉ l := fun h => hu ((mem_dedupFirst l u).mpr h)
    simp only [hu, if_false, List.mem_append, List.mem_singleton, mem_dedupFirst]
    by_cases hxu : x = u <;> simp [hxu, hul]

theorem mem_setToggle_twice (u x : String) (l : List String) :
    x ∈ setToggle u (setToggle u l) ↔ x ∈ l := by
  by_cases hxu : x = u
  · subst hxu; simp [mem_setToggle]
  · simp [mem_setToggle, hxu]

theorem alookup_aremove_ne {α : Type} {k k' : String} (h : k ≠ k')
    (l : List (String × α)) : alookup k' (aremove k l) = alookup k' l := by
  induction l with
  | nil => rfl
  | cons hd tl ih =>
    obtain ⟨k₀, v₀⟩ := hd
    by_cases h₀ : k₀ = k
    · subst h₀; simp [aremove, alookup, h]
    · simp [aremove, alookup, h₀, ih]

theorem alookup_eq_none_of_not_mem_keys {α : Type} {k : String}
    {l : List (String × α)} (h : k ∉ l.map Prod.fst) : alookup k l = none := by
  induction l with
  | nil => rfl
  | cons hd tl ih =>
    obtain ⟨k₀, v₀⟩ := hd
    simp only [List.map_cons, List.mem_cons] at h
    push_neg at h
    have h₀ : ¬ k₀ = k := fun hh => h.1 hh.symm
    simp [alookup, h₀, ih h.2]

theorem alookup_aremove_self {α : Type} (k : String) {l : List (String × α)}
    (h : (l.map Prod.fst).Nodup) : alookup k (aremove k l) = none := by
  induction l with
  | nil => rfl
  | cons hd tl ih =>
    obtain ⟨k₀, v₀⟩ := hd
    simp only [List.map_cons, List.nodup_cons] at h
    by_cases h₀ : k₀ = k
    · subst h₀
      simp only [aremove, if_pos rfl]
      exact alookup_eq_none_of_not_mem_keys h.1
    · simp [aremove, alookup, h₀, ih h.2]

theorem aremove_sublist {α : Type} (k : String) (l : List (String × α)) :
    (aremove k l).Sublist l := by
  induction l with
  | nil => simp [aremove]
  | cons hd tl ih =>
    obtain ⟨k₀, v₀⟩ := hd
    by_cases h₀ : k₀ = k
    · simp [aremove, h₀]
    · simpa [aremove, h₀] using ih

theorem keys_aset {α : Type} (k : String) (v : α) (l : List (String × α)) :
    (aset k v l).map Prod.fst =
      if k ∈ l.map Prod.fst then l.map Prod.fst else l.map Prod.fst ++ [k] := by
  induction l with
  | nil => simp [aset]
  | cons hd tl ih =>
    obtain ⟨k₀, v₀⟩ := hd
    by_cases h₀ : k₀ = k
    · simp [aset, h₀]
    · have : ¬ k = k₀ := fun h => h₀ h.symm
      simp [aset, h₀, ih, this]
      by_cases hk : k ∈ tl.map Prod.fst <;> simp [hk, this]

theorem nodup_keys_aset {α : Type} (k : String) (v : α)
    {l : List (String × α)} (h : (l.map Prod.fst).Nodup) :
    ((aset k v l).map Prod.fst).Nodup := by
  rw [keys_aset]
  by_cases hk : k ∈ l.map Prod.fst
  · simpa [hk] using h
  · simp only [hk, if_false]
    exact List.Nodup.append h (List.nodup_singleton k) (by simpa using hk)

theorem nodup_keys_aremove {α : Type} (k : String)
    {l : List (String × α)} (h : (l.map Prod.fst).Nodup) :
    ((aremove k l).map Prod.fst).Nodup :=
  ((aremove_sublist k l).map Prod.fst).nodup h

/-- Lookup of the toggled key after the store-back step of `toggleReaction`
(`delete` on empty, assignment otherwise). -/
theorem alookup_ifset (k : String) (t : List String)
    {r : List (String × List String)} (hk : (r.map Prod.fst).Nodup) :
    alookup k (if t.isEmpty then aremove k r else aset k t r)
      = if t.isEmpty then none else some t := by
  cases ht : t.isEmpty
  · simp [ht, alookup_aset_self]
  · simp [ht, alookup_aremove_self k hk]

theorem alookup_ifset_ne {k k' : String} (h : k ≠ k') (t : List String)
    (r : List (String × List String)) :
    alookup k' (if t.isEmpty then aremove k r else aset k t r) = alookup k' r := by
  cases ht : t.isEmpty
  · simp [ht, alookup_aset_ne h]
  · simp [ht, alookup_aremove_ne h]

theorem nodup_keys_ifset (k : String) (t : List String)
    {r : List (String × List String)} (hk : (r.map Prod.fst).Nodup) :
    (((if t.isEmpty then aremove k r else aset k t r)).map Prod.fst).Nodup := by
  cases ht : t.isEmpty
  · simpa [ht] using nodup_keys_aset k t hk
  · simpa [ht] using nodup_keys_aremove k hk

theorem getD_alookup_ifset (k : String) (t : List String)
    {r : List (String × List String)} (hk : (r.map Prod.fst).Nodup) :
    (alookup k (if t.isEmpty then aremove k r else aset k t r)).getD [] = t := by
  rw [alookup_ifset k t hk]
  cases ht : t.isEmpty
  · simp [ht]
  · simp [ht, List.isEmpty_iff.mp ht]

theorem getMessage_updateFirst (id : String) (f : Message → Message)
    (hf : ∀ m, (f m).id = m.id) (msgs : List Message) :
    getMessage id (updateFirst (fun m => m.id = id) f msgs)
      = (getMessage id msgs).map f := by
  induction msgs with
  | nil => rfl
  | cons m rest ih =>
    by_cases h : m.id = id
    · simp [updateFirst, getMessage, List.find?_cons, h, hf m]
    · simpa [updateFirst, getMessage, List.find?_cons, h] using ih

/-! ### Concrete sample messages used by claim C1 -/

/-- A stored message with id `"a"`. -/
def dupMsgA : Message :=
  { id := "a", roomId := "r", role := Role.user, content := "first", createdAt := 0 }

/-- A second, different message carrying the same id `"a"`. -/
def dupMsgB : Message :=
  { id := "a", roomId := "r", role := Role.user, content := "second", createdAt := 1 }

/-- C1 counterexample: `saveMessage` does not fail on a duplicate id and does
not leave the list unchanged — saving a second message with id `"a"` into a
store already holding id `"a"` changes the list and yields two stored
messages with that id. -/
theorem saveMessage_duplicate_counterexample :
    saveMessage dupMsgB [dupMsgA] ≠ [dupMsgA]
      ∧ countWithId "a" (saveMessage dupMsgB [dupMsgA]) = 2 := by
  constructor
  · decide
  · decide

/-- C1 (amended): `saveMessage` appends unconditionally and has no failure
path; in particular, when a message with the same id already exists, the
store gains a second message with that id (no `DuplicateId` error exists in
the store). -/
theorem saveMessage_appends_unconditionally (m : Message) (msgs : List Message)
    (hdup : ∃ m' ∈ msgs, m'.id = m.id) :
    saveMessage m msgs = msgs ++ [m]
      ∧ countWithId m.id (saveMessage m msgs) = countWithId m.id msgs + 1
      ∧ 2 ≤ countWithId m.id (saveMessage m msgs) := by
  refine ⟨rfl, ?_, ?_⟩
  · simp [saveMessage, countWithId, List.countP_append, List.countP_cons]
  · obtain ⟨m', hmem, hid⟩ := hdup
    have h1 : 0 < List.countP (fun x => decide (x.id = m.id)) msgs := by
      rw [List.countP_pos_iff]
      exact ⟨m', hmem, by simp [hid]⟩
    simp only [saveMessage, countWithId, List.countP_append]
    have h2 : List.countP (fun x => decide (x.id = m.id)) [m] = 1 := by simp
    omega

/-- C1 witness: the amended theorem applied at the concrete duplicate pair. -/
theorem saveMessage_appends_unconditionally_witness :
    countWithId "a" (saveMessage dupMsgB [dupMsgA]) = countWithId "a" [dupMsgA] + 1
      ∧ 2 ≤ countWithId "a" (saveMessage dupMsgB [dupMsgA]) :=
  ⟨(saveMessage_appends_unconditionally dupMsgB [dupMsgA]
      ⟨dupMsgA, by decide, by decide⟩).2.1,
   (saveMessage_appends_unconditionally dupMsgB [dupMsgA]
      ⟨dupMsgA, by decide, by decide⟩).2.2⟩

/-- C5: For every message id, emoji and userId such that the message exists
(and its reactions object has well-formed, duplicate-free keys, as every JS
object does), `toggleReaction` applied twice restores the prior reactions
state: the first call flips whether userId is in the emoji's reactor set,
the second call restores the reactions relation for every emoji and user,
and the toggled emoji's key is never left holding an empty reactor set. -/
theorem toggleReaction_involution
    (msgs : List Message) (id emoji userId : String) (n1 n2 : Int) (m : Message)
    (hm : getMessage id msgs = some m)
    (hwf : ((m.reactions.getD []).map Prod.fst).Nodup) :
    msgHasReaction id emoji userId (toggleReaction id emoji userId n1 msgs)
        = !(msgHasReaction id emoji userId msgs)
    ∧ (∀ e u, msgHasReaction id e u
          (toggleReaction id emoji userId n2 (toggleReaction id emoji userId n1 msgs))
        = msgHasReaction id e u msgs)
    ∧ (∀ rr, msgReactors id emoji (toggleReaction id emoji userId n1 msgs) = some rr
        → rr ≠ []) := by
  have hg1 : getMessage id (toggleReaction id emoji userId n1 msgs)
      = some (applyToggle emoji userId n1 m) := by
    rw [toggleReaction,
      getMessage_updateFirst id (applyToggle emoji userId n1) (fun _ => rfl), hm]
    rfl
  have hg2 : getMessage id
        (toggleReaction id emoji userId n2 (toggleReaction id emoji userId n1 msgs))
      = some (applyToggle emoji userId n2 (applyToggle emoji userId n1 m)) := by
    conv_lhs => rw [toggleReaction]
    rw [getMessage_updateFirst id (applyToggle emoji userId n2) (fun _ => rfl), hg1]
    rfl
  have hm1react : (applyToggle emoji userId n1 m).reactions
      = some (if (setToggle userId ((alookup emoji (m.reactions.getD [])).getD [])).isEmpty
              then aremove emoji (m.reactions.getD [])
              else aset emoji (setToggle userId ((alookup emoji (m.reactions.getD [])).getD []))
                     (m.reactions.getD [])) := rfl
  have hwf1 : (((applyToggle emoji userId n1 m).reactions.getD []).map Prod.fst).Nodup := by
    rw [hm1react]
    exact nodup_keys_ifset emoji _ hwf
  have hget1 : (alookup emoji ((applyToggle emoji userId n1 m).reactions.getD [])).getD []
      = setToggle userId ((alookup emoji (m.reactions.getD [])).getD []) := by
    rw [hm1react]
    exact getD_alookup_ifset emoji _ hwf
  have hm2react : (applyToggle emoji userId n2 (applyToggle emoji userId n1 m)).reactions
      = some (if (setToggle userId ((alookup emoji
                  ((applyToggle emoji userId n1 m).reactions.getD [])).getD [])).isEmpty
              then aremove emoji ((applyToggle emoji userId n1 m).reactions.getD [])
              else aset emoji (setToggle userId ((alookup emoji
                  ((applyToggle emoji userId n1 m).reactions.getD [])).getD []))
                     ((applyToggle emoji userId n1 m).reactions.getD [])) := rfl
  refine ⟨?_, ?_, ?_⟩
  · -- first call flips membership of userId in the emoji's reactor set
    simp only [msgHasReaction, hg1, hm, Option.getD_some, hget1]
    rw [Bool.eq_iff_iff]
    simp [mem_setToggle, List.elem_iff]
  · -- second call restores the reactions relation everywhere
    intro e u
    by_cases he : e = emoji
    · subst he
      simp only [msgHasReaction, hg2, hm]
      have hget2 : (alookup e ((applyToggle e userId n2 (applyToggle e userId n1 m)).reactions.getD [])).getD []
          = setToggle userId (setToggle userId ((alookup e (m.reactions.getD [])).getD [])) := by
        rw [hm2react]
        simp only [Option.getD_some]
        rw [getD_alookup_ifset e _ hwf1, hget1]
      rw [hget2, Bool.eq_iff_iff]
      simp [mem_setToggle_twice, List.elem_iff]
    · have hne : emoji ≠ e := fun h => he h.symm
      simp only [msgHasReaction, hg2, hm]
      have hlk2 : alookup e ((applyToggle emoji userId n2 (applyToggle emoji userId n1 m)).reactions.getD [])
          = alookup e (m.reactions.getD []) := by
        rw [hm2react]
        simp only [Option.getD_some]
        rw [alookup_ifset_ne hne, hm1react]
        simp only [Option.getD_some]
        rw [alookup_ifset_ne hne]
      rw [hlk2]
  · -- the toggled emoji key never holds an empty reactor set
    intro rr hrr
    simp only [msgReactors, hg1, hm1react] at hrr
    rw [alookup_ifset emoji _ hwf] at hrr
    cases ht : (setToggle userId ((alookup emoji (m.reactions.getD [])).getD [])).isEmpty
    · rw [ht] at hrr
      simp only [Bool.false_eq_true, if_false] at hrr
      intro hnil
      have ht1 := Option.some.inj hrr
      rw [hnil] at ht1
      rw [ht1] at ht
      simp at ht
    · rw [ht] at hrr
      simp at hrr

/-- A concrete stored message with one existing reaction, for the C5 witness. -/
def reactMsg : Message :=
  { id := "m1", roomId := "r", role := Role.user, content := "hi", createdAt := 0,
    reactions := some [("+1", ["u1"])] }

/-- C5 witness: the involution applied at a concrete message, emoji and user. -/
theorem toggleReaction_involution_witness :
    msgHasReaction "m1" "+1" "u2" (toggleReaction "m1" "+1" "u2" 5 [reactMsg])
        = !(msgHasReaction "m1" "+1" "u2" [reactMsg])
    ∧ msgHasReaction "m1" "+1" "u1"
        (toggleReaction "m1" "+1" "u2" 6 (toggleReaction "m1" "+1" "u2" 5 [reactMsg]))
        = msgHasReaction "m1" "+1" "u1" [reactMsg] :=
  ⟨(toggleReaction_involution [reactMsg] "m1" "+1" "u2" 5 6 reactMsg
      (by decide) (by decide)).1,
   (toggleReaction_involution [reactMsg] "m1" "+1" "u2" 5 6 reactMsg
      (by decide) (by decide)).2.1 "+1" "u1"⟩

/-! ### Admission controller (from the stream API route) -/

/-- Rate-limit store entry (`type RateEntry`). -/
structure RateEntry where
  count : Int
  resetAt : Int
deriving DecidableEq, Repr

/-- Result object of `checkRateLimit`. -/
structure RateResult where
  allowed : Bool
  remaining : Int
  retryAfterMs : Option Int := none
deriving DecidableEq, Repr

/-- `checkRateLimit(key, max, windowMs)` from the stream route: on no entry
or `now > entry.resetAt`, reset `{count: 1, resetAt: now + windowMs}` and
allow; else if `count >= max`, deny with `retryAfterMs = resetAt - now`;
else increment and allow. `now` (`Date.now()`) is passed explicitly. -/
def checkRateLimit (key : String) (max windowMs now : Int)
    (store : List (String × RateEntry)) :
    List (String × RateEntry) × RateResult :=
  match alookup key store with
  | none =>
      (aset key { count := 1, resetAt := now + windowMs } store,
       { allowed := true, remaining := max - 1 })
  | some entry =>
      if now > entry.resetAt then
        (aset key { count := 1, resetAt := now + windowMs } store,
         { allowed := true, remaining := max - 1 })
      else if entry.count ≥ max then
        (store,
         { allowed := false, remaining := 0,
           retryAfterMs := some (entry.resetAt - now) })
      else
        (aset key { count := entry.count + 1, resetAt := entry.resetAt } store,
         { allowed := true, remaining := max - (entry.count + 1) })

/-- Sequential application of `checkRateLimit` to a list of attempt times,
threading the rate-limit store. -/
def rateRun (key : String) (max windowMs : Int)
    (store : List (String × RateEntry)) :
    List Int → List (String × RateEntry) × List RateResult
  | [] => (store, [])
  | t :: ts =>
      let res := checkRateLimit key max windowMs t store
      let rest := rateRun key max windowMs res.1 ts
      (rest.1, res.2 :: rest.2)

/-- C2: With max=5, windowMs=20000, starting from no entry for the key (or a
first call past the stored window), the first five attempts strictly inside
the window are allowed (the first resets `{count=1, resetAt=t0+20000}`, later
allowed attempts increment the count, visible in the decreasing `remaining`),
the sixth attempt inside the window is denied with
`retryAfterMs = windowResetAt - now > 0`, and an attempt after the window
elapses is allowed and resets the counter. -/
theorem checkRateLimit_window
    (key : String) (store : List (String × RateEntry))
    (t0 t1 t2 t3 t4 t5 t6 : Int)
    (hstart : alookup key store = none
        ∨ ∃ e, alookup key store = some e ∧ t0 > e.resetAt)
    (h1 : t1 < t0 + 20000) (h2 : t2 < t0 + 20000) (h3 : t3 < t0 + 20000)
    (h4 : t4 < t0 + 20000) (h5 : t5 < t0 + 20000) (h6 : t6 > t0 + 20000) :
    (rateRun key 5 20000 store [t0, t1, t2, t3, t4, t5, t6]).2
      = [ { allowed := true, remaining := 4 },
          { allowed := true, remaining := 3 },
          { allowed := true, remaining := 2 },
          { allowed := true, remaining := 1 },
          { allowed := true, remaining := 0 },
          { allowed := false, remaining := 0,
            retryAfterMs := some (t0 + 20000 - t5) },
          { allowed := true, remaining := 4 } ]
    ∧ 0 < t0 + 20000 - t5
    ∧ alookup key (rateRun key 5 20000 store [t0, t1, t2, t3, t4, t5, t6]).1
        = some { count := 1, resetAt := t6 + 20000 }
    ∧ alookup key (rateRun key 5 20000 store [t0]).1
        = some { count := 1, resetAt := t0 + 20000 } := by
  have hstep : ∀ (c t : Int) (s : List (String × RateEntry)),
      alookup key s = some { count := c, resetAt := t0 + 20000 } →
      t < t0 + 20000 → c < 5 →
      checkRateLimit key 5 20000 t s
        = (aset key { count := c + 1, resetAt := t0 + 20000 } s,
           { allowed := true, remaining := 5 - (c + 1) }) := by
    intro c t s hl hlt hc
    have hng : ¬ (t > t0 + 20000) := by omega
    have hge : ¬ (c ≥ 5) := by omega
    simp [checkRateLimit, hl, hng, hge]
  have hA : checkRateLimit key 5 20000 t0 store
      = (aset key { count := 1, resetAt := t0 + 20000 } store,
         { allowed := true, remaining := 4 }) := by
    rcases hstart with h | ⟨e, he, hgt⟩
    · norm_num [checkRateLimit, h]
    · norm_num [checkRateLimit, he, hgt]
  set s1 := aset key { count := 1, resetAt := t0 + 20000 } store with hs1
  set s2 := aset key { count := 2, resetAt := t0 + 20000 } s1 with hs2
  set s3 := aset key { count := 3, resetAt := t0 + 20000 } s2 with hs3
  set s4 := aset key { count := 4, resetAt := t0 + 20000 } s3 with hs4
  set s5 := aset key { count := 5, resetAt := t0 + 20000 } s4 with hs5
  have hB : checkRateLimit key 5 20000 t1 s1
      = (s2, { allowed := true, remaining := 3 }) := by
    have := hstep 1 t1 s1 (alookup_aset_self _ _ _) h1 (by norm_num)
    simpa [hs2] using this
  have hC : checkRateLimit key 5 20000 t2 s2
      = (s3, { allowed := true, remaining := 2 }) := by
    have := hstep 2 t2 s2 (alookup_aset_self _ _ _) h2 (by norm_num)
    simpa [hs3] using this
  have hD : checkRateLimit key 5 20000 t3 s3
      = (s4, { allowed := true, remaining := 1 }) := by
    have := hstep 3 t3 s3 (alookup_aset_self _ _ _) h3 (by norm_num)
    simpa [hs4] using this
  have hE : checkRateLimit key 5 20000 t4 s4
      = (s5, { allowed := true, remaining := 0 }) := by
    have := hstep 4 t4 s4 (alookup_aset_self _ _ _) h4 (by norm_num)
    simpa [hs5] using this
  have hF : checkRateLimit key 5 20000 t5 s5
      = (s5, { allowed := false, remaining := 0,
               retryAfterMs := some (t0 + 20000 - t5) }) := by
    have hl : alookup key s5 = some { count := 5, resetAt := t0 + 20000 } :=
      alookup_aset_self _ _ _
    have hng : ¬ (t5 > t0 + 20000) := by omega
    simp [checkRateLimit, hl, hng]
  have hG : checkRateLimit key 5 20000 t6 s5
      = (aset key { count := 1, resetAt := t6 + 20000 } s5,
         { allowed := true, remaining := 4 }) := by
    have hl : alookup key s5 = some { count := 5, resetAt := t0 + 20000 } :=
      alookup_aset_self _ _ _
    norm_num [checkRateLimit, hl, h6]
  refine ⟨?_, by omega, ?_, ?_⟩
  · simp only [rateRun, hA, hB, hC, hD, hE, hF, hG]
  · simp only [rateRun, hA, hB, hC, hD, hE, hF, hG]
    exact alookup_aset_self _ _ _
  · simp only [rateRun, hA]
    exact alookup_aset_self _ _ _

/-- C2 witness: the window behaviour at concrete times 0,1,2,3,4,5 and a
call at 20001 after the window elapsed, from the empty store. -/
theorem checkRateLimit_window_witness :
    (rateRun "r1:u1" 5 20000 [] [0, 1, 2, 3, 4, 5, 20001]).2
      = [ { allowed := true, remaining := 4 },
          { allowed := true, remaining := 3 },
          { allowed := true, remaining := 2 },
          { allowed := true, remaining := 1 },
          { allowed := true, remaining := 0 },
          { allowed := false, remaining := 0, retryAfterMs := some 19995 },
          { allowed := true, remaining := 4 } ]
    ∧ alookup "r1:u1" (rateRun "r1:u1" 5 20000 [] [0, 1, 2, 3, 4, 5, 20001]).1
        = some { count := 1, resetAt := 40001 } := by
  have h := checkRateLimit_window "r1:u1" [] 0 1 2 3 4 5 20001
    (Or.inl rfl) (by norm_num) (by norm_num) (by norm_num) (by norm_num)
    (by norm_num) (by norm_num)
  refine ⟨?_, ?_⟩
  · have := h.1
    norm_num at this
    exact this
  · have := h.2.2.1
    norm_num at this
    exact this

/-- Slow-mode gate from the stream route's POST handler: look up
`lastAcceptedAt` (default 0), deny with the remaining wait when
`now - lastAt < slowModeMs`, otherwise record `now` and allow. The second
component is `some wait` on denial and `none` on acceptance. -/
def slowModeCheck (key : String) (slowModeMs now : Int)
    (store : List (String × Int)) : List (String × Int) × Option Int :=
  let lastAt := (alookup key store).getD 0
  if now - lastAt < slowModeMs then
    (store, some (slowModeMs - (now - lastAt)))
  else
    (aset key now store, none)

/-- Admission decision of the POST handler. -/
inductive Decision where
  | allowed
  | rateLimited (retryAfterMs : Int)
  | slowMode (waitMs : Int)
deriving DecidableEq, Repr

/-- The admission section of the stream route's POST handler: compute
`rateKey = roomId + ":" + (senderId ?? "anonymous")`, run `checkRateLimit`
with the room settings, return 429 on denial; then, only when
`settings.slowModeMs > 0`, run the slow-mode gate. -/
def admissionCheck (roomId : String) (senderId : Option String)
    (settings : RoomSettings) (now : Int)
    (rateStore : List (String × RateEntry)) (slowStore : List (String × Int)) :
    (List (String × RateEntry) × List (String × Int)) × Decision :=
  let actor := senderId.getD "anonymous"
  let rateKey := roomId ++ ":" ++ actor
  let rateRes := checkRateLimit rateKey settings.rateLimitMax
      settings.rateLimitWindowMs now rateStore
  if rateRes.2.allowed = false then
    ((rateRes.1, slowStore), Decision.rateLimited ((rateRes.2.retryAfterMs).getD 0))
  else if settings.slowModeMs > 0 then
    match (slowModeCheck rateKey settings.slowModeMs now slowStore).2 with
    | some wait =>
        ((rateRes.1, (slowModeCheck rateKey settings.slowModeMs now slowStore).1),
         Decision.slowMode wait)
    | none =>
        ((rateRes.1, (slowModeCheck rateKey settings.slowModeMs now slowStore).1),
         Decision.allowed)
  else
    ((rateRes.1, slowStore), Decision.allowed)

theorem slowModeCheck_denied_store (key : String) (ms now : Int)
    (store : List (String × Int)) :
    (slowModeCheck key ms now store).2.isSome →
    (slowModeCheck key ms now store).1 = store := by
  unfold slowModeCheck
  by_cases h : now - (alookup key store).getD 0 < ms <;> simp [h]

/-- C8: Slow mode gating — with a recorded `lastAcceptedAt`, an attempt with
`now - lastAcceptedAt < slowModeMs` is denied with remaining wait
`slowModeMs - (now - lastAcceptedAt)` and records nothing; an attempt at
least `slowModeMs` after the last accepted one is allowed and records `now`;
any denied admission (rate limit or slow mode) leaves the slow-mode store
unchanged; with slowModeMs=2000 two calls 500ms apart the second is denied
with remaining wait 1500ms, and a call 2000ms after the accepted one is
allowed. -/
theorem slowMode_gating :
    (∀ (key : String) (ms now lastAt : Int) (store : List (String × Int)),
        alookup key store = some lastAt → now - lastAt < ms →
        slowModeCheck key ms now store = (store, some (ms - (now - lastAt))))
    ∧ (∀ (key : String) (ms now lastAt : Int) (store : List (String × Int)),
        alookup key store = some lastAt → ms ≤ now - lastAt →
        slowModeCheck key ms now store = (aset key now store, none)
          ∧ alookup key (aset key now store) = some now)
    ∧ (∀ (roomId : String) (senderId : Option String) (settings : RoomSettings)
          (now : Int) (rateStore : List (String × RateEntry))
          (slowStore : List (String × Int)),
        (admissionCheck roomId senderId settings now rateStore slowStore).2
            ≠ Decision.allowed →
        (admissionCheck roomId senderId settings now rateStore slowStore).1.2
            = slowStore)
    ∧ slowModeCheck "r1:u1" 2000 10500 [("r1:u1", 10000)]
        = ([("r1:u1", 10000)], some 1500)
    ∧ slowModeCheck "r1:u1" 2000 12000 [("r1:u1", 10000)]
        = ([("r1:u1", 12000)], none) := by
  refine ⟨?_, ?_, ?_, by decide, by decide⟩
  · intro key ms now lastAt store hl hlt
    simp [slowModeCheck, hl, hlt]
  · intro key ms now lastAt store hl hge
    have h : ¬ (now - lastAt < ms) := by omega
    exact ⟨by simp [slowModeCheck, hl, h], alookup_aset_self _ _ _⟩
  · intro roomId senderId settings now rateStore slowStore hne
    by_cases hr : (checkRateLimit (roomId ++ ":" ++ senderId.getD "anonymous")
        settings.rateLimitMax settings.rateLimitWindowMs now rateStore).2.allowed = false
    · simp [admissionCheck, hr]
    · by_cases hs : settings.slowModeMs > 0
      · rcases hsc : (slowModeCheck (roomId ++ ":" ++ senderId.getD "anonymous")
            settings.slowModeMs now slowStore).2 with _ | wait
        · exact absurd (by simp [admissionCheck, hr, hs, hsc]) hne
        · have hst := slowModeCheck_denied_store
            (roomId ++ ":" ++ senderId.getD "anonymous")
            settings.slowModeMs now slowStore (by simp [hsc])
          simp [admissionCheck, hr, hs, hsc, hst]
      · exact absurd (by simp [admissionCheck, hr, hs]) hne

/-- C8 witness: the general denial and acceptance clauses applied at the
concrete slow-mode scenario (slowModeMs=2000, calls 500ms and 2000ms after
an acceptance recorded at t=10000). -/
theorem slowMode_gating_witness :
    slowModeCheck "k" 2000 10500 [("k", 10000)] = ([("k", 10000)], some 1500)
    ∧ slowModeCheck "k" 2000 12000 [("k", 10000)] = ([("k", 12000)], none) := by
  constructor
  · have h := slowMode_gating.1 "k" 2000 10500 10000 [("k", 10000)]
      (by decide) (by decide)
    simpa using h
  · have h := (slowMode_gating.2.1 "k" 2000 12000 10000 [("k", 10000)]
      (by decide) (by decide)).1
    simpa [aset] using h

/-! ### Flag detector (from the stream API route) -/

/-- Characters the JS regex `.` (no `s` flag) refuses to match:
line feed, carriage return, line separator, paragraph separator. -/
def isLineTerminator (c : Char) : Bool :=
  c = '\n' || c = '\r' || c = '\u2028' || c = '\u2029'

/-- Test of the regex `/(.)\1{6,}/`: some non-line-terminator character
followed by at least six further copies of itself. -/
def hasRepeatedRun : List Char → Bool
  | [] => false
  | c :: rest =>
      (!(isLineTerminator c) && decide (6 ≤ (rest.takeWhile (fun d => d = c)).length))
      || hasRepeatedRun rest

/-- JS `\s` whitespace class (the members the regex `\S` excludes). -/
def isJsWhitespace (c : Char) : Bool :=
  c = ' ' || c = '\t' || c = '\n' || c = '\r' || c = '\x0b' || c = '\x0c'
  || c = '\u00A0' || c = '\u1680'
  || (decide (0x2000 ≤ c.toNat) && decide (c.toNat ≤ 0x200a))
  || c = '\u2028' || c = '\u2029' || c = '\u202F' || c = '\u205F'
  || c = '\u3000' || c = '\uFEFF'

/-- Case-insensitive prefix test (the regex `i` flag, ASCII case folding). -/
def startsWithCI : List Char → List Char → Bool
  | [], _ => true
  | _ :: _, [] => false
  | p :: ps, c :: cs => (Char.toLower c = Char.toLower p) && startsWithCI ps cs

/-- Match of `/https?:\/\/\S+/i` anchored at the head of the list: the
scheme followed by at least one non-whitespace character. -/
def urlAt (l : List Char) : Bool :=
  (startsWithCI "http://".data l &&
    match l.drop 7 with
    | [] => false
    | c :: _ => !(isJsWhitespace c))
  || (startsWithCI "https://".data l &&
    match l.drop 8 with
    | [] => false
    | c :: _ => !(isJsWhitespace c))

/-- Unanchored test of `/https?:\/\/\S+/i` over the whole content. -/
def hasUrlToken : List Char → Bool
  | [] => false
  | c :: rest => urlAt (c :: rest) || hasUrlToken rest

/-- Exact prefix test over characters. -/
def listStartsWith : List Char → List Char → Bool
  | [], _ => true
  | _ :: _, [] => false
  | p :: ps, c :: cs => p = c && listStartsWith ps cs

/-- Substring test, modelling JS `String.prototype.includes`. -/
def containsSub (pat : List Char) : List Char → Bool
  | [] => pat.isEmpty
  | c :: rest => listStartsWith pat (c :: rest) || containsSub pat rest

/-- The fixed denylist from `detectFlags`. -/
def bannedKeywords : List String := ["free money", "giveaway", "scam", "spam"]

/-- `detectFlags(content)` from the stream route: push
`"repeated-characters"` when `/(.)\1{6,}/` matches, `"link-only"` when
`/https?:\/\/\S+/gi` matches and `content.length < 30`, and
`"banned-keyword"` when the lowercased content includes a denylist entry. -/
def detectFlags (content : String) : List String :=
  let cs := content.data
  let flags1 := if hasRepeatedRun cs then ["repeated-characters"] else []
  let flags2 :=
    if hasUrlToken cs && decide (cs.length < 30) then ["link-only"] else []
  let lowered := cs.map Char.toLower
  let flags3 :=
    if bannedKeywords.any (fun k => containsSub k.data lowered)
    then ["banned-keyword"] else []
  flags1 ++ flags2 ++ flags3

/-! ### Flag detector characterizations -/

theorem replicate_isPrefix_iff (n : Nat) (c : Char) (l : List Char) :
    List.replicate n c <+: l ↔ n ≤ (l.takeWhile (fun d => d = c)).length := by
  induction n generalizing l with
  | zero => simp
  | succ n ih =>
    cases l with
    | nil => simp [List.replicate_succ]
    | cons x xs =>
      rw [List.replicate_succ, List.cons_prefix_cons, List.takeWhile_cons]
      by_cases hx : x = c
      · simp [hx, ih, Nat.succ_le_succ_iff]
      · have : ¬ c = x := fun h => hx h.symm
        simp [hx, this]

theorem hasRepeatedRun_iff (l : List Char) :
    hasRepeatedRun l = true
      ↔ ∃ c, isLineTerminator c = false ∧ List.replicate 7 c <:+: l := by
  induction l with
  | nil =>
    simp only [hasRepeatedRun, Bool.false_eq_true, false_iff]
    rintro ⟨c, -, hinf⟩
    rw [List.infix_nil] at hinf
    simpa using congrArg List.length hinf
  | cons x xs ih =>
    rw [hasRepeatedRun]
    simp only [Bool.or_eq_true, Bool.and_eq_true, Bool.not_eq_true',
      decide_eq_true_eq, ih]
    constructor
    · rintro (⟨hterm, hlen⟩ | ⟨c, hterm, hinf⟩)
      · refine ⟨x, hterm, List.IsPrefix.isInfix ?_⟩
        rw [List.replicate_succ, List.cons_prefix_cons]
        exact ⟨rfl, (replicate_isPrefix_iff 6 x xs).mpr hlen⟩
      · exact ⟨c, hterm, hinf.trans (List.infix_cons_iff.mpr (Or.inr (List.infix_refl xs)))⟩
    · rintro ⟨c, hterm, hinf⟩
      rcases List.infix_cons_iff.mp hinf with hpre | hinf'
      · rw [List.replicate_succ, List.cons_prefix_cons] at hpre
        obtain ⟨rfl, hpre⟩ := hpre
        exact Or.inl ⟨hterm, (replicate_isPrefix_iff 6 c xs).mp hpre⟩
      · exact Or.inr ⟨c, hterm, hinf'⟩

theorem listStartsWith_iff (p l : List Char) :
    listStartsWith p l = true ↔ p <+: l := by
  induction p generalizing l with
  | nil => simp [listStartsWith]
  | cons a ps ih =>
    cases l with
    | nil => simp [listStartsWith]
    | cons c cs => simp [listStartsWith, List.cons_prefix_cons, ih]

theorem containsSub_iff (p l : List Char) :
    containsSub p l = true ↔ p <:+: l := by
  induction l with
  | nil =>
    simp [containsSub, List.isEmpty_iff, List.infix_nil]
  | cons c cs ih =>
    rw [containsSub, List.infix_cons_iff]
    simp [listStartsWith_iff, ih]

theorem mem_detectFlags_iff (content : String) :
    ("repeated-characters" ∈ detectFlags content
        ↔ hasRepeatedRun content.data = true)
    ∧ ("link-only" ∈ detectFlags content
        ↔ (hasUrlToken content.data && decide (content.data.length < 30)) = true)
    ∧ ("banned-keyword" ∈ detectFlags content
        ↔ (bannedKeywords.any
            (fun k => containsSub k.data (content.data.map Char.toLower))) = true) := by
  by_cases h1 : hasRepeatedRun content.data <;>
  by_cases h2 : hasUrlToken content.data && decide (content.data.length < 30) <;>
  by_cases h3 : bannedKeywords.any
      (fun k => containsSub k.data (content.data.map Char.toLower)) <;>
  simp [detectFlags, h1, h2, h3]

/-- Seven consecutive line feeds. -/
def sevenNewlines : String := "\n\n\n\n\n\n\n"

/-- C6 counterexample: the claim predicts the `"repeated-characters"` flag
exactly when some character repeats at least 7 times consecutively, but for
a content of seven newlines — where the newline does repeat 7 times
consecutively — the detector raises no flag at all, because the regex `.`
does not match line terminators. -/
theorem detectFlags_newline_counterexample :
    List.replicate 7 '\n' <:+: sevenNewlines.data
    ∧ detectFlags sevenNewlines = []
    ∧ "repeated-characters" ∉ detectFlags sevenNewlines := by
  refine ⟨⟨[], [], by decide⟩, by decide, by decide⟩

/-- C6 (amended): `detectFlags` is a pure function of the content returning
`"repeated-characters"` exactly when some character other than a line
terminator repeats at least 7 times consecutively, `"link-only"` exactly
when the content contains a bare URL token and has length < 30, and
`"banned-keyword"` exactly when the lowercased content contains one of
"free money", "giveaway", "scam", "spam"; with the four example contents
mapping to their expected flag sets. -/
theorem detectFlags_characterization (content : String) :
    ("repeated-characters" ∈ detectFlags content
        ↔ ∃ c, isLineTerminator c = false ∧ List.replicate 7 c <:+: content.data)
    ∧ ("link-only" ∈ detectFlags content
        ↔ hasUrlToken content.data = true ∧ content.data.length < 30)
    ∧ ("banned-keyword" ∈ detectFlags content
        ↔ ∃ k ∈ bannedKeywords, k.data <:+: content.data.map Char.toLower)
    ∧ detectFlags "aaaaaaaa" = ["repeated-characters"]
    ∧ detectFlags "http://x.co" = ["link-only"]
    ∧ detectFlags "this is spam" = ["banned-keyword"]
    ∧ detectFlags "hello there" = [] := by
  obtain ⟨hr, hl, hb⟩ := mem_detectFlags_iff content
  refine ⟨?_, ?_, ?_, by decide, by decide, by decide, by decide⟩
  · rw [hr, hasRepeatedRun_iff]
  · rw [hl]
    simp
  · rw [hb]
    simp only [List.any_eq_true, containsSub_iff]

/-! ### Client session reconnect protocol (from the WebSocket client helper) -/

/-- Mutable closure state of `connect`: `shouldReconnect`, `reconnectDelay`,
the pending retry timer (`some d` = a retry scheduled `d` ms ahead) and
`isIntentionalClose`. -/
structure ClientState where
  shouldReconnect : Bool
  reconnectDelay : Int
  reconnectTimer : Option Int
  isIntentionalClose : Bool
deriving DecidableEq, Repr

/-- Socket lifecycle events observed by the closure: `onopen`, `onclose`,
the scheduled retry timer firing (which consumes the timer and calls
`createWebSocket`), and the returned cleanup function (intentional close). -/
inductive ClientEvent where
  | opened
  | closed
  | timerFired
  | cleanup
deriving DecidableEq, Repr

/-- State after `connect` starts the initial connection:
`shouldReconnect = true`, `reconnectDelay = 1000`, no pending timer. -/
def initialClientState : ClientState :=
  { shouldReconnect := true, reconnectDelay := 1000,
    reconnectTimer := none, isIntentionalClose := false }

/-- Transition function translated from the socket callbacks: `onopen`
resets the delay to 1000; `onclose` (when reconnection is enabled and the
close is not intentional) schedules a retry after the current delay and
doubles the delay up to the 30000 cap; the timer firing consumes the timer;
the cleanup function disables reconnection, marks the close intentional and
cancels any pending timer. -/
def clientStep (s : ClientState) : ClientEvent → ClientState
  | ClientEvent.opened =>
      { s with reconnectDelay := 1000, isIntentionalClose := false }
  | ClientEvent.closed =>
      if s.shouldReconnect && !s.isIntentionalClose then
        { s with reconnectTimer := some s.reconnectDelay,
                 reconnectDelay := min (s.reconnectDelay * 2) 30000 }
      else s
  | ClientEvent.timerFired => { s with reconnectTimer := none }
  | ClientEvent.cleanup =>
      { s with shouldReconnect := false, isIntentionalClose := true,
               reconnectTimer := none }

/-- The client state reached from the initial connection after a list of
socket events. -/
def clientRun (events : List ClientEvent) : ClientState :=
  events.foldl clientStep initialClientState

theorem clientStep_preserves_dead (s : ClientState)
    (h1 : s.shouldReconnect = false) (h2 : s.reconnectTimer = none)
    (e : ClientEvent) :
    (clientStep s e).shouldReconnect = false
      ∧ (clientStep s e).reconnectTimer = none := by
  cases e <;> simp [clientStep, h1, h2]

theorem clientRun_preserves_dead (s : ClientState)
    (h1 : s.shouldReconnect = false) (h2 : s.reconnectTimer = none)
    (events : List ClientEvent) :
    (events.foldl clientStep s).reconnectTimer = none := by
  induction events generalizing s with
  | nil => exact h2
  | cons e es ih =>
    obtain ⟨h1', h2'⟩ := clientStep_preserves_dead s h1 h2 e
    exact ih (clientStep s e) h1' h2'

theorem clientStep_delay_lower (s : ClientState)
    (h1 : 1000 ≤ s.reconnectDelay)
    (h2 : ∀ d, s.reconnectTimer = some d → 1000 ≤ d) (e : ClientEvent) :
    1000 ≤ (clientStep s e).reconnectDelay
      ∧ (∀ d, (clientStep s e).reconnectTimer = some d → 1000 ≤ d) := by
  cases e with
  | opened => exact ⟨by simp [clientStep], by simpa [clientStep] using h2⟩
  | closed =>
    by_cases hb : s.shouldReconnect && !s.isIntentionalClose
    · refine ⟨?_, ?_⟩
      · simp only [clientStep, hb, if_true]
        exact le_min (by omega) (by norm_num)
      · intro d hd
        simp only [clientStep, hb, if_true] at hd
        have : s.reconnectDelay = d := by
          simpa using congrArg (fun x => x.getD 0) hd
        omega
    · simp only [clientStep, hb, if_false]
      exact ⟨h1, h2⟩
  | timerFired => exact ⟨h1, by simp [clientStep]⟩
  | cleanup => exact ⟨h1, by simp [clientStep]⟩

/-- C9: Client session reconnect protocol — from the initial state, an
unintentional close schedules the first retry at 1000ms; in any state with
reconnection enabled, a close schedules a retry after the current delay and
doubles the delay capped at 30000ms; any successful (re)connection resets
the delay to 1000ms; the cleanup function cancels the pending timer and no
later event can ever schedule a reconnect; and along every event history
both the current delay and every scheduled retry delay are at least 1000ms
(the client never reconnects immediately). -/
theorem clientReconnect_backoff :
    (clientStep initialClientState ClientEvent.closed
        = { shouldReconnect := true, reconnectDelay := 2000,
            reconnectTimer := some 1000, isIntentionalClose := false })
    ∧ (∀ s : ClientState, s.shouldReconnect = true → s.isIntentionalClose = false →
        (clientStep s ClientEvent.closed).reconnectTimer = some s.reconnectDelay
          ∧ (clientStep s ClientEvent.closed).reconnectDelay
              = min (s.reconnectDelay * 2) 30000)
    ∧ (∀ s : ClientState,
        (clientStep s ClientEvent.opened).reconnectDelay = 1000)
    ∧ (∀ (s : ClientState) (events : List ClientEvent),
        (clientStep s ClientEvent.cleanup).reconnectTimer = none
          ∧ (events.foldl clientStep (clientStep s ClientEvent.cleanup)).reconnectTimer
              = none)
    ∧ (∀ events : List ClientEvent,
        1000 ≤ (clientRun events).reconnectDelay
          ∧ (∀ d, (clientRun events).reconnectTimer = some d → 1000 ≤ d)) := by
  refine ⟨by decide, ?_, ?_, ?_, ?_⟩
  · intro s h1 h2
    simp [clientStep, h1, h2]
  · intro s
    simp [clientStep]
  · intro s events
    refine ⟨by simp [clientStep], ?_⟩
    exact clientRun_preserves_dead _ (by simp [clientStep]) (by simp [clientStep]) events
  · intro events
    have : ∀ (s : ClientState), 1000 ≤ s.reconnectDelay →
        (∀ d, s.reconnectTimer = some d → 1000 ≤ d) →
        1000 ≤ (events.foldl clientStep s).reconnectDelay
          ∧ (∀ d, (events.foldl clientStep s).reconnectTimer = some d → 1000 ≤ d) := by
      induction events with
      | nil => intro s h1 h2; exact ⟨h1, h2⟩
      | cons e es ih =>
        intro s h1 h2
        obtain ⟨h1', h2'⟩ := clientStep_delay_lower s h1 h2 e
        exact ih (clientStep s e) h1' h2'
    exact this initialClientState (by simp [initialClientState])
      (by simp [initialClientState])

/-- C9 witness: the doubling law applied at the state reached after the
first unintentional close (delay 2000), showing the second retry is
scheduled at 2000ms. -/
theorem clientReconnect_backoff_witness :
    (clientStep (clientStep initialClientState ClientEvent.closed)
        ClientEvent.closed).reconnectTimer = some 2000
      ∧ (clientStep (clientStep initialClientState ClientEvent.closed)
        ClientEvent.closed).reconnectDelay = 4000 := by
  have h := clientReconnect_backoff.2.1
    (clientStep initialClientState ClientEvent.closed) (by decide) (by decide)
  refine ⟨?_, ?_⟩
  · rw [h.1]; decide
  · rw [h.2]; decide

/-! ### Room broadcast server (from the standalone WebSocket server) -/

/-- The `rooms` map: room key → member set, modelled as an association list
of duplicate-free member lists in insertion order. Connections are opaque
ids; their `readyState === OPEN` status and whether `send` throws are
supplied as predicates. -/
def roomKeys (rooms : List (String × List Nat)) : List String :=
  rooms.map Prod.fst

/-- Active room count reported by the `/health` endpoint (`rooms.size`). -/
def roomCount (rooms : List (String × List Nat)) : Nat :=
  rooms.length

/-- `joinRoom(roomId, ws)`: lazily create the room's member set, then add
the connection. -/
def joinRoom (roomId : String) (c : Nat)
    (rooms : List (String × List Nat)) : List (String × List Nat) :=
  let rooms1 :=
    if (alookup roomId rooms).isSome then rooms else aset roomId [] rooms
  let members := (alookup roomId rooms1).getD []
  aset roomId (if c ∈ members then members else members ++ [c]) rooms1

/-- `broadcast(roomId, data)`: no-op for an unknown room; otherwise attempt
delivery to every member whose `readyState` is OPEN and evict from the set
every member whose `send` throws. Closed members are skipped but kept. The
room key itself is never removed, even when the set becomes empty. -/
def broadcast (isOpen sendFails : Nat → Bool) (roomId : String)
    (rooms : List (String × List Nat)) : List (String × List Nat) :=
  match alookup roomId rooms with
  | none => rooms
  | some roomClients =>
      aset roomId (roomClients.filter (fun c => !(isOpen c && sendFails c))) rooms

/-- The `ws.on("close")` handler installed by `joinRoom`: remove the
connection from the room's set and delete the room key when the set becomes
empty. -/
def handleClose (roomId : String) (c : Nat)
    (rooms : List (String × List Nat)) : List (String × List Nat) :=
  let rooms1 :=
    match alookup roomId rooms with
    | none => rooms
    | some members => aset roomId (members.erase c) rooms
  match alookup roomId rooms1 with
  | some members => if members.length = 0 then aremove roomId rooms1 else rooms1
  | none => rooms1

theorem not_mem_keys_of_alookup_none {α : Type} {k : String}
    {l : List (String × α)} (h : alookup k l = none) : k ∉ l.map Prod.fst := by
  induction l with
  | nil => simp
  | cons hd tl ih =>
    obtain ⟨k₀, v₀⟩ := hd
    by_cases h₀ : k₀ = k
    · rw [alookup, if_pos h₀] at h
      exact absurd h (by simp)
    · rw [alookup, if_neg h₀] at h
      simp only [List.map_cons, List.mem_cons]
      push_neg
      exact ⟨fun hh => h₀ hh.symm, ih h⟩

theorem mem_keys_of_alookup {α : Type} {k : String} {v : α}
    {l : List (String × α)} (h : alookup k l = some v) : k ∈ l.map Prod.fst := by
  induction l with
  | nil => simp [alookup] at h
  | cons hd tl ih =>
    obtain ⟨k₀, v₀⟩ := hd
    by_cases h₀ : k₀ = k
    · subst h₀; simp
    · rw [alookup, if_neg h₀] at h
      simpa using Or.inr (ih h)

/-- C10: Only the connection-close handler removes a room key — `broadcast`
preserves the key set exactly (even when its failed-delivery path evicts the
last member, leaving a zero-member room that the `/health` active-room count
still includes), `joinRoom` only ever adds a key, and `handleClose` removes
the room key once the last member leaves. -/
theorem broadcast_keeps_empty_rooms :
    (∀ (isOpen sendFails : Nat → Bool) (roomId : String)
        (rooms : List (String × List Nat)),
        roomKeys (broadcast isOpen sendFails roomId rooms) = roomKeys rooms)
    ∧ (∀ (roomId : String) (c : Nat) (rooms : List (String × List Nat)),
        roomKeys (joinRoom roomId c rooms)
          = if roomId ∈ roomKeys rooms then roomKeys rooms
            else roomKeys rooms ++ [roomId])
    ∧ broadcast (fun _ => true) (fun _ => true) "r1" [("r1", [7])] = [("r1", [])]
    ∧ roomCount (broadcast (fun _ => true) (fun _ => true) "r1" [("r1", [7])]) = 1
    ∧ handleClose "r1" 7 [("r1", [7])] = []
    ∧ roomCount (handleClose "r1" 7 [("r1", [7])]) = 0 := by
  refine ⟨?_, ?_, by decide, by decide, by decide, by decide⟩
  · intro isOpen sendFails roomId rooms
    unfold broadcast
    cases h : alookup roomId rooms with
    | none => rfl
    | some members =>
      show (aset roomId _ rooms).map Prod.fst = rooms.map Prod.fst
      rw [keys_aset, if_pos (mem_keys_of_alookup h)]
  · intro roomId c rooms
    unfold joinRoom
    cases h : alookup roomId rooms with
    | none =>
      have hmem : roomId ∉ rooms.map Prod.fst := not_mem_keys_of_alookup_none h
      simp only [h, Option.isSome_none, Bool.false_eq_true, if_false]
      show (aset roomId _ (aset roomId ([] : List Nat) rooms)).map Prod.fst = _
      rw [keys_aset]
      have hk1 : roomId ∈ (aset roomId ([] : List Nat) rooms).map Prod.fst := by
        rw [keys_aset, if_neg hmem]
        simp
      rw [if_pos hk1, keys_aset, if_neg hmem, roomKeys, if_neg hmem]
    | some members =>
      have hmem : roomId ∈ rooms.map Prod.fst := mem_keys_of_alookup h
      simp only [h, Option.isSome_some, if_true]
      show (aset roomId _ rooms).map Prod.fst = _
      rw [keys_aset, if_pos hmem, roomKeys, if_pos hmem]

/-! ### Room statistics operations (from `lib/db.ts`) -/

/-- Optional token-usage fields of a `Partial<RoomStats>` update. -/
structure TokenUsagePartial where
  prompt : Option ℚ := none
  completion : Option ℚ := none
  total : Option ℚ := none
deriving DecidableEq, Repr

/-- `Partial<Omit<RoomStats, "roomId">>`: absent fields do not override. -/
structure RoomStatsPartial where
  userMessages : Option ℚ := none
  assistantMessages : Option ℚ := none
  avgResponseMs : Option ℚ := none
  lastResponseMs : Option ℚ := none
  totalResponses : Option ℚ := none
  tokenUsage : Option TokenUsagePartial := none
deriving DecidableEq, Repr

/-- `getRoomStats(roomId)`: the stored record or the all-zero default. -/
def getRoomStats (roomId : String) (store : List (String × RoomStats)) :
    RoomStats :=
  (alookup roomId store).getD
    { roomId := roomId, userMessages := 0, assistantMessages := 0,
      avgResponseMs := 0, lastResponseMs := 0, totalResponses := 0,
      tokenUsage := { prompt := 0, completion := 0, total := 0 } }

/-- `updateRoomStats(roomId, updates)`: spread-merge onto the current
record; the `tokenUsage` sub-fields merge independently via `??`. -/
def updateRoomStats (roomId : String) (updates : RoomStatsPartial)
    (store : List (String × RoomStats)) : List (String × RoomStats) :=
  let current := getRoomStats roomId store
  let next : RoomStats :=
    { roomId := current.roomId,
      userMessages := updates.userMessages.getD current.userMessages,
      assistantMessages := updates.assistantMessages.getD current.assistantMessages,
      avgResponseMs := updates.avgResponseMs.getD current.avgResponseMs,
      lastResponseMs := updates.lastResponseMs.getD current.lastResponseMs,
      totalResponses := updates.totalResponses.getD current.totalResponses,
      tokenUsage :=
        { prompt := ((updates.tokenUsage.bind (fun u => u.prompt)).getD
            current.tokenUsage.prompt),
          completion := ((updates.tokenUsage.bind (fun u => u.completion)).getD
            current.tokenUsage.completion),
          total := ((updates.tokenUsage.bind (fun u => u.total)).getD
            current.tokenUsage.total) } }
  aset roomId next store

theorem getRoomStats_aset (roomId : String) (v : RoomStats)
    (store : List (String × RoomStats)) :
    getRoomStats roomId (aset roomId v store) = v := by
  simp [getRoomStats, alookup_aset_self]

/-! ### Stream orchestrator (from `streamRoomReply` in `app/actions`) -/

/-- One entry of the conversation history passed to `streamRoomReply`. -/
structure ChatMsg where
  role : Role
  content : String
deriving DecidableEq, Repr

/-- Events broadcast to the room via the WS server's ingestion endpoint. -/
inductive Event where
  | userMessage (id content senderId : String) (flags : List String)
  | token (delta : String)
  | assistantMessage (id content : String)
  | done
  | error (message : String)
deriving DecidableEq, Repr

/-- The message-store state the orchestrator touches. -/
structure Store where
  messages : List Message
  roomStats : List (String × RoomStats)
deriving DecidableEq, Repr

/-- The usage report of the generation collaborator (`onFinish`'s `usage`),
with every field optional as in the defensive cast in the source. -/
structure Usage where
  promptTokens : Option ℚ := none
  completionTokens : Option ℚ := none
  totalTokens : Option ℚ := none
  inputTokens : Option ℚ := none
  outputTokens : Option ℚ := none
deriving DecidableEq, Repr

/-- `usage?.promptTokens ?? usage?.inputTokens ?? 0`. -/
def usagePromptTokens (usage : Option Usage) : ℚ :=
  match usage.bind (fun u => u.promptTokens) with
  | some v => v
  | none =>
    match usage.bind (fun u => u.inputTokens) with
    | some v => v
    | none => 0

/-- `usage?.completionTokens ?? usage?.outputTokens ?? 0`. -/
def usageCompletionTokens (usage : Option Usage) : ℚ :=
  match usage.bind (fun u => u.completionTokens) with
  | some v => v
  | none =>
    match usage.bind (fun u => u.outputTokens) with
    | some v => v
    | none => 0

/-- `usage?.totalTokens ?? promptTokens + completionTokens`. -/
def usageTotalTokens (usage : Option Usage) : ℚ :=
  match usage.bind (fun u => u.totalTokens) with
  | some v => v
  | none => usagePromptTokens usage + usageCompletionTokens usage

/-- The user-message block at the head of `streamRoomReply`:
`messageId = clientMessageId ?? randomUUID()`; when the last history entry
is a user message and no message with that id exists, persist it, increment
`userMessages` and broadcast `"user-message"`; otherwise do nothing. -/
def submitUserPhase (roomId : String) (messages : List ChatMsg)
    (senderId : Option String) (clientMessageId : Option String)
    (attachments : Option (List Attachment)) (flags : List String)
    (freshId : String) (now : Int) (s : Store) : Store × List Event :=
  let messageId := clientMessageId.getD freshId
  match messages.getLast? with
  | none => (s, [])
  | some um =>
    if um.role = Role.user then
      match getMessage messageId s.messages with
      | some _ => (s, [])
      | none =>
        let msgs := saveMessage
          { id := messageId, roomId := roomId, role := Role.user,
            content := um.content, createdAt := now,
            senderId := some (senderId.getD "anonymous"),
            attachments := attachments, flags := flags } s.messages
        let stats := getRoomStats roomId s.roomStats
        let stats' := updateRoomStats roomId
          { userMessages := some (stats.userMessages + 1) } s.roomStats
        ({ messages := msgs, roomStats := stats' },
         [Event.userMessage messageId um.content (senderId.getD "anonymous") flags])
    else (s, [])

/-- The `onFinish` callback of `streamRoomReply`: persist the assembled
text as an assistant message, fold the elapsed time into the running stats,
sum the token counters, then broadcast `"assistant-message"` and `"done"`. -/
def onFinishPhase (roomId : String) (startedAt finishedAt : Int)
    (text : String) (usage : Option Usage) (assistantId : String)
    (s : Store) : Store × List Event :=
  let msgs := saveMessage
    { id := assistantId, roomId := roomId, role := Role.assistant,
      content := text, createdAt := finishedAt,
      senderId := some "assistant" } s.messages
  let stats := getRoomStats roomId s.roomStats
  let responseMs : ℚ := ((finishedAt - startedAt : Int) : ℚ)
  let totalResponses := stats.totalResponses + 1
  let avgResponseMs :=
    (stats.avgResponseMs * stats.totalResponses + responseMs) / totalResponses
  let stats' := updateRoomStats roomId
    { assistantMessages := some (stats.assistantMessages + 1),
      lastResponseMs := some responseMs,
      avgResponseMs := some avgResponseMs,
      totalResponses := some totalResponses,
      tokenUsage := some
        { prompt := some (stats.tokenUsage.prompt + usagePromptTokens usage),
          completion := some (stats.tokenUsage.completion + usageCompletionTokens usage),
          total := some (stats.tokenUsage.total + usageTotalTokens usage) } }
    s.roomStats
  ({ messages := msgs, roomStats := stats' },
   [Event.assistantMessage assistantId text, Event.done])

/-- Outcome of the generation collaborator: a finite fragment sequence
ending either in a usage report or in a mid-stream error. -/
inductive GenOutcome where
  | success (fragments : List String) (text : String) (usage : Option Usage)
  | failure (fragments : List String)
deriving DecidableEq, Repr

/-- The token-relay loop plus its termination, from `streamRoomReply`: each
fragment is broadcast as a `"token"` event; on success the `onFinish`
callback runs; on a mid-stream error the catch block broadcasts `"error"`
and nothing else happens. -/
def streamPhase (roomId : String) (startedAt finishedAt : Int)
    (assistantId : String) (outcome : GenOutcome) (s : Store) :
    Store × List Event :=
  match outcome with
  | GenOutcome.success frags text usage =>
      let res := onFinishPhase roomId startedAt finishedAt text usage assistantId s
      (res.1, frags.map Event.token ++ res.2)
  | GenOutcome.failure frags =>
      (s, frags.map Event.token ++ [Event.error "Streaming error"])

theorem getMessage_saveMessage_self (m : Message) (msgs : List Message)
    (h : getMessage m.id msgs = none) :
    getMessage m.id (saveMessage m msgs) = some m := by
  unfold getMessage at h ⊢
  unfold saveMessage
  induction msgs with
  | nil => simp
  | cons x rest ih =>
    by_cases hx : x.id = m.id
    · rw [List.find?_cons_of_pos _ (by simp [hx])] at h
      exact absurd h (by simp)
    · rw [List.find?_cons_of_neg _ (by simp [hx])] at h
      rw [List.cons_append, List.find?_cons_of_neg _ (by simp [hx])]
      exact ih h

theorem countWithId_eq_zero (id : String) (msgs : List Message)
    (h : getMessage id msgs = none) : countWithId id msgs = 0 := by
  unfold getMessage at h
  unfold countWithId
  rw [List.countP_eq_zero]
  intro a ha
  simpa using List.find?_eq_none.mp h a ha

/-- C4: On successful completion (`onFinish`), the room stats are replaced
by exactly: assistantMessages+1, totalResponses+1, lastResponseMs = the
elapsed time, avgResponseMs = (avgOld·countOld + elapsed)/(countOld+1),
token counters summed onto the previous totals, and everything else
(roomId, userMessages) unchanged, followed by the "assistant-message" and
"done" broadcasts; concretely, from totalResponses=0, responses taking
100ms then 300ms leave avgResponseMs = 200 and lastResponseMs = 300. -/
theorem onFinish_stats_update :
    (∀ (roomId : String) (t0 t1 : Int) (text : String) (usage : Option Usage)
        (aid : String) (s : Store),
        getRoomStats roomId (onFinishPhase roomId t0 t1 text usage aid s).1.roomStats
          = { roomId := (getRoomStats roomId s.roomStats).roomId,
              userMessages := (getRoomStats roomId s.roomStats).userMessages,
              assistantMessages :=
                (getRoomStats roomId s.roomStats).assistantMessages + 1,
              avgResponseMs :=
                ((getRoomStats roomId s.roomStats).avgResponseMs
                    * (getRoomStats roomId s.roomStats).totalResponses
                  + ((t1 - t0 : Int) : ℚ))
                / ((getRoomStats roomId s.roomStats).totalResponses + 1),
              lastResponseMs := ((t1 - t0 : Int) : ℚ),
              totalResponses := (getRoomStats roomId s.roomStats).totalResponses + 1,
              tokenUsage :=
                { prompt := (getRoomStats roomId s.roomStats).tokenUsage.prompt
                    + usagePromptTokens usage,
                  completion := (getRoomStats roomId s.roomStats).tokenUsage.completion
                    + usageCompletionTokens usage,
                  total := (getRoomStats roomId s.roomStats).tokenUsage.total
                    + usageTotalTokens usage } }
          ∧ (onFinishPhase roomId t0 t1 text usage aid s).2
              = [Event.assistantMessage aid text, Event.done])
    ∧ (getRoomStats "r" (onFinishPhase "r" 1000 1300 "t2" none "a2"
          (onFinishPhase "r" 0 100 "t1" none "a1"
            { messages := [], roomStats := [] }).1).1.roomStats).avgResponseMs = 200
    ∧ (getRoomStats "r" (onFinishPhase "r" 1000 1300 "t2" none "a2"
          (onFinishPhase "r" 0 100 "t1" none "a1"
            { messages := [], roomStats := [] }).1).1.roomStats).lastResponseMs = 300 := by
  refine ⟨?_,
    by norm_num [onFinishPhase, updateRoomStats, getRoomStats_aset, getRoomStats,
      alookup, usagePromptTokens, usageCompletionTokens, usageTotalTokens],
    by norm_num [onFinishPhase, updateRoomStats, getRoomStats_aset, getRoomStats,
      alookup, usagePromptTokens, usageCompletionTokens, usageTotalTokens]⟩
  intro roomId t0 t1 text usage aid s
  exact ⟨by simp [onFinishPhase, updateRoomStats, getRoomStats_aset], rfl⟩

/-- C3: Resubmitting a request with the same externally supplied
`clientMessageId` is idempotent — after two submissions exactly one message
with that id is persisted, `userMessages` is incremented exactly once, the
first submission broadcasts exactly one "user-message" event, and the
second submission changes nothing and broadcasts nothing. -/
theorem resubmission_idempotent
    (roomId : String) (msgs : List ChatMsg) (um : ChatMsg)
    (senderId : Option String) (cid : String)
    (attachments : Option (List Attachment)) (flags : List String)
    (fresh1 fresh2 : String) (t1 t2 : Int) (s : Store)
    (hlast : msgs.getLast? = some um) (hrole : um.role = Role.user)
    (hfresh : getMessage cid s.messages = none) :
    countWithId cid
        (submitUserPhase roomId msgs senderId (some cid) attachments flags fresh2 t2
          (submitUserPhase roomId msgs senderId (some cid) attachments flags
            fresh1 t1 s).1).1.messages = 1
    ∧ (getRoomStats roomId
        (submitUserPhase roomId msgs senderId (some cid) attachments flags fresh2 t2
          (submitUserPhase roomId msgs senderId (some cid) attachments flags
            fresh1 t1 s).1).1.roomStats).userMessages
        = (getRoomStats roomId s.roomStats).userMessages + 1
    ∧ (submitUserPhase roomId msgs senderId (some cid) attachments flags
        fresh1 t1 s).2
        = [Event.userMessage cid um.content (senderId.getD "anonymous") flags]
    ∧ (submitUserPhase roomId msgs senderId (some cid) attachments flags fresh2 t2
        (submitUserPhase roomId msgs senderId (some cid) attachments flags
          fresh1 t1 s).1)
        = ((submitUserPhase roomId msgs senderId (some cid) attachments flags
            fresh1 t1 s).1, []) := by
  have hfirst : submitUserPhase roomId msgs senderId (some cid) attachments flags
      fresh1 t1 s
      = ({ messages := saveMessage
             { id := cid, roomId := roomId, role := Role.user,
               content := um.content, createdAt := t1,
               senderId := some (senderId.getD "anonymous"),
               attachments := attachments, flags := flags } s.messages,
           roomStats := updateRoomStats roomId
             { userMessages :=
                 some ((getRoomStats roomId s.roomStats).userMessages + 1) }
             s.roomStats },
         [Event.userMessage cid um.content (senderId.getD "anonymous") flags]) := by
    simp only [submitUserPhase, Option.getD_some, hlast, hfresh, if_pos hrole]
  have hnew : getMessage cid (saveMessage
      { id := cid, roomId := roomId, role := Role.user,
        content := um.content, createdAt := t1,
        senderId := some (senderId.getD "anonymous"),
        attachments := attachments, flags := flags } s.messages)
      = some { id := cid, roomId := roomId, role := Role.user,
               content := um.content, createdAt := t1,
               senderId := some (senderId.getD "anonymous"),
               attachments := attachments, flags := flags } := by
    exact getMessage_saveMessage_self
      { id := cid, roomId := roomId, role := Role.user,
        content := um.content, createdAt := t1,
        senderId := some (senderId.getD "anonymous"),
        attachments := attachments, flags := flags } s.messages hfresh
  have hsecond : submitUserPhase roomId msgs senderId (some cid) attachments flags
      fresh2 t2
      (submitUserPhase roomId msgs senderId (some cid) attachments flags
        fresh1 t1 s).1
      = ((submitUserPhase roomId msgs senderId (some cid) attachments flags
          fresh1 t1 s).1, []) := by
    rw [hfirst]
    simp only [submitUserPhase, Option.getD_some, hlast, if_pos hrole, hnew]
  refine ⟨?_, ?_, ?_, hsecond⟩
  · rw [hsecond, hfirst]
    simp only [saveMessage, countWithId, List.countP_append]
    rw [← countWithId, countWithId_eq_zero cid s.messages hfresh]
    simp [List.countP_cons]
  · rw [hsecond, hfirst]
    simp [updateRoomStats, getRoomStats_aset]
  · rw [hfirst]

/-- C3 witness: the idempotent-resubmission theorem applied at a concrete
room, history and client message id, starting from the empty store. -/
theorem resubmission_idempotent_witness :
    countWithId "c1"
        (submitUserPhase "r" [{ role := Role.user, content := "hi" }] none
          (some "c1") none [] "f2" 2
          (submitUserPhase "r" [{ role := Role.user, content := "hi" }] none
            (some "c1") none [] "f1" 1
            { messages := [], roomStats := [] }).1).1.messages = 1
    ∧ (submitUserPhase "r" [{ role := Role.user, content := "hi" }] none
        (some "c1") none [] "f1" 1 { messages := [], roomStats := [] }).2
        = [Event.userMessage "c1" "hi" "anonymous" []] := by
  have h := resubmission_idempotent "r" [{ role := Role.user, content := "hi" }]
    { role := Role.user, content := "hi" } none "c1" none [] "f1" "f2" 1 2
    { messages := [], roomStats := [] } rfl rfl rfl
  exact ⟨h.1, h.2.2.1⟩

/-- A persisted user message present before a failing generation, used by
the C7 witness. -/
def c7msg : Message :=
  { id := "u1", roomId := "r", role := Role.user, content := "hi", createdAt := 0 }

/-- C7: If the generation collaborator fails mid-stream, the store is left
exactly as it was — no assistant message is persisted and the room stats
are untouched — while the events broadcast are the already-relayed tokens
followed by a single "error" event; every previously persisted message (in
particular the user message) is still present, and no "assistant-message"
event is broadcast. -/
theorem generation_failure_no_persist
    (roomId : String) (t0 t1 : Int) (aid : String) (frags : List String)
    (s : Store) :
    (streamPhase roomId t0 t1 aid (GenOutcome.failure frags) s).1 = s
    ∧ (streamPhase roomId t0 t1 aid (GenOutcome.failure frags) s).2
        = frags.map Event.token ++ [Event.error "Streaming error"]
    ∧ getRoomStats roomId
        (streamPhase roomId t0 t1 aid (GenOutcome.failure frags) s).1.roomStats
        = getRoomStats roomId s.roomStats
    ∧ (∀ m ∈ s.messages,
        m ∈ (streamPhase roomId t0 t1 aid (GenOutcome.failure frags) s).1.messages)
    ∧ (∀ id text, Event.assistantMessage id text
        ∉ (streamPhase roomId t0 t1 aid (GenOutcome.failure frags) s).2) := by
  refine ⟨rfl, rfl, rfl, fun m hm => hm, ?_⟩
  intro id text hmem
  simp only [streamPhase, List.mem_append, List.mem_map, List.mem_singleton] at hmem
  rcases hmem with ⟨d, -, hd⟩ | hd <;> exact absurd hd (by simp)

/-- C7 witness: the mid-stream-failure theorem applied at a concrete store
holding one user message, with two already-relayed tokens. -/
theorem generation_failure_no_persist_witness :
    (streamPhase "r" 0 5 "a1" (GenOutcome.failure ["he", "llo"])
        { messages := [c7msg], roomStats := [] }).1
      = { messages := [c7msg], roomStats := [] }
    ∧ c7msg ∈ (streamPhase "r" 0 5 "a1" (GenOutcome.failure ["he", "llo"])
        { messages := [c7msg], roomStats := [] }).1.messages := by
  have h := generation_failure_no_persist "r" 0 5 "a1" ["he", "llo"]
    { messages := [c7msg], roomStats := [] }
  exact ⟨h.1, h.2.2.2.1 c7msg (by simp)⟩

end ChatApp
